import Mathlib

/-!
Verification development for the oracle-node staker client.

Shallow embedding conventions:
* Go unsigned machine integers are `Nat`; conversions such as Go's
  `int32(x)` for `x : uint32` are modelled explicitly (`toInt32`,
  `wrapInt32`) so two's-complement wrap-around is visible.
* Fallible Go calls (RPC reads, transaction submissions) are inputs of
  type `Except`; the environment of a function under study provides the
  outcome of each external call it makes.
* A Go `panic` is modelled as the `none` case of an `Option` result.
* Go strings are modelled as lists of runes (`List Char`); Go's
  `len(string)` (a byte count) is `goStrLen`.
* Functions whose implementation is not part of the sources (only their
  tests are) carry a doc comment starting `Modelled from the spec:` and
  follow the specification text.
-/

/-- Go's `int32(x)` conversion applied to an unsigned value: reduce mod
2^32 and reinterpret in two's complement. -/
def toInt32 (n : Nat) : Int :=
  if n % 4294967296 < 2147483648 then ((n % 4294967296 : Nat) : Int)
  else ((n % 4294967296 : Nat) : Int) - 4294967296

/-- Wrap an integer into the `int32` range, as Go arithmetic on `int32`
values does. -/
def wrapInt32 (x : Int) : Int :=
  (x + 2147483648) % 4294967296 - 2147483648

/-! ## ClaimBounty (src/cmd/claimBounty.go) -/

/-- Error values observed by `ClaimBounty`: failures of its external
calls, plus the error it constructs itself when the bounty amount is
zero (`errors.New("bounty amount is 0")`). -/
inductive ClaimErr where
  | external (code : Nat)
  | bountyAmountZero
deriving DecidableEq

/-- On-chain bounty lock as read by `GetBountyLock`: `amount` is a
uint256, `redeemAfter` a uint32 epoch number. -/
structure BountyLock where
  amount : Nat
  redeemAfter : Nat
deriving DecidableEq

/-- Outcomes of the external calls `ClaimBounty` makes, in program
order: `GetEpoch`, `GetBountyLock`, and `RedeemBounty` (the submitted
transaction, whose hash is returned on success). -/
structure RedeemBountyEnv where
  getEpoch : Except ClaimErr Nat
  getBountyLock : Except ClaimErr BountyLock
  redeemBounty : Except ClaimErr Nat

/-- Result of `ClaimBounty`: which bounty id (if any) was passed to a
`redeemBounty` transaction, the returned hash (`0` models
`core.NilHash`), and the returned error (`none` models a nil error). -/
structure ClaimOutcome where
  submitted : Option Nat
  hash : Nat
  claimError : Option ClaimErr
deriving DecidableEq

/-- Embedding of `ClaimBounty` (src/cmd/claimBounty.go lines 66-118).
The Go code computes `waitFor := int32(bountyLock.RedeemAfter) -
int32(epoch)` — a two's-complement `int32` subtraction — and only
submits `redeemBounty` when `waitFor ≤ 0` and the lock amount is
nonzero. -/
def ClaimBounty (env : RedeemBountyEnv) (bountyId : Nat) : ClaimOutcome :=
  match env.getEpoch with
  | .error e => ⟨none, 0, some e⟩
  | .ok epoch =>
    match env.getBountyLock with
    | .error e => ⟨none, 0, some e⟩
    | .ok lock =>
      if lock.amount = 0 then ⟨none, 0, some .bountyAmountZero⟩
      else if 0 < wrapInt32 (toInt32 lock.redeemAfter - toInt32 epoch) then
        ⟨none, 0, none⟩
      else
        match env.redeemBounty with
        | .error e => ⟨some bountyId, 0, some e⟩
        | .ok h => ⟨some bountyId, h, none⟩

lemma toInt32_small (n : Nat) (h : n < 2147483648) : toInt32 n = (n : Int) := by
  have hm : n % 4294967296 = n := Nat.mod_eq_of_lt (by omega)
  unfold toInt32
  rw [hm]
  simp [h]

lemma wrapInt32_small (x : Int) (h1 : -2147483648 ≤ x) (h2 : x < 2147483648) :
    wrapInt32 x = x := by
  unfold wrapInt32
  omega

/-- Claim C5 (amended): provided the epoch and `redeemAfter` are both
below `2^31` — so that Go's `int32` conversion preserves their values —
`ClaimBounty` on a nonzero-amount bounty submits no transaction and
returns the nil hash with a nil error while `redeemAfter` exceeds the
current epoch, and once `redeemAfter ≤ epoch` it submits `redeemBounty`
for that bounty id and returns the transaction's hash. -/
theorem claimBounty_lock_period (env : RedeemBountyEnv) (id ep : Nat) (lock : BountyLock)
    (hep : env.getEpoch = .ok ep) (hlock : env.getBountyLock = .ok lock)
    (hamt : lock.amount ≠ 0)
    (hep31 : ep < 2147483648) (hra31 : lock.redeemAfter < 2147483648) :
    (ep < lock.redeemAfter → ClaimBounty env id = ⟨none, 0, none⟩) ∧
    (lock.redeemAfter ≤ ep → ∀ h, env.redeemBounty = .ok h →
      ClaimBounty env id = ⟨some id, h, none⟩) := by
  have hwrap : wrapInt32 (toInt32 lock.redeemAfter - toInt32 ep)
      = (lock.redeemAfter : Int) - (ep : Int) := by
    rw [toInt32_small _ hra31, toInt32_small _ hep31]
    exact wrapInt32_small _ (by omega) (by omega)
  constructor
  · intro hlt
    unfold ClaimBounty
    rw [hep, hlock]
    simp only [hwrap]
    rw [if_neg hamt, if_pos (by omega)]
  · intro hle h hred
    unfold ClaimBounty
    rw [hep, hlock]
    simp only [hwrap]
    rw [if_neg hamt, if_neg (by omega), hred]

def claimEnvWait : RedeemBountyEnv := ⟨.ok 5, .ok ⟨3, 9⟩, .ok 11⟩

def claimEnvDue : RedeemBountyEnv := ⟨.ok 9, .ok ⟨3, 9⟩, .ok 11⟩

/-- Witness for claim C5: at epoch 5 a bounty locked until epoch 9 is
not claimed (nil hash, nil error); at epoch 9 it is redeemed and the
transaction hash is returned. -/
theorem claimBounty_lock_period_witness :
    ClaimBounty claimEnvWait 7 = ⟨none, 0, none⟩ ∧
    ClaimBounty claimEnvDue 7 = ⟨some 7, 11, none⟩ := by
  constructor
  · exact (claimBounty_lock_period claimEnvWait 7 5 ⟨3, 9⟩ rfl rfl
      (by decide) (by decide) (by decide)).1 (by decide)
  · exact (claimBounty_lock_period claimEnvDue 7 9 ⟨3, 9⟩ rfl rfl
      (by decide) (by decide) (by decide)).2 (by decide) 11 rfl

def claimEnvWrap : RedeemBountyEnv := ⟨.ok 0, .ok ⟨1, 2147483648⟩, .ok 5⟩

/-- Counterexample to claim C5 as stated: with `redeemAfter = 2^31` and
current epoch `0` the lock period is not yet over (`redeemAfter >
epoch`), yet `ClaimBounty` submits the `redeemBounty` transaction and
returns its hash, because Go's `int32(2147483648)` wraps to `-2^31`,
making `waitFor` negative. -/
theorem claimBounty_wrap_counterexample :
    (0 : Nat) < 2147483648 ∧
    ClaimBounty claimEnvWrap 7 = ⟨some 7, 5, none⟩ := by decide

/-- Claim C6 (amended): for a bounty whose on-chain lock amount is zero,
`ClaimBounty` submits no transaction and returns the nil hash, but it
does not drop the bounty silently: it returns the error
`"bounty amount is 0"`. -/
theorem claimBounty_zero_amount (env : RedeemBountyEnv) (id ep : Nat) (lock : BountyLock)
    (hep : env.getEpoch = .ok ep) (hlock : env.getBountyLock = .ok lock)
    (hz : lock.amount = 0) :
    ClaimBounty env id = ⟨none, 0, some .bountyAmountZero⟩ := by
  unfold ClaimBounty
  rw [hep, hlock]
  simp [hz]

def claimEnvZero : RedeemBountyEnv := ⟨.ok 5, .ok ⟨0, 2⟩, .ok 11⟩

def claimEnvZero2 : RedeemBountyEnv := ⟨.ok 5, .ok ⟨0, 7⟩, .ok 11⟩

/-- Counterexample to claim C6 as stated: at a zero-amount lock the code
reports the error `"bounty amount is 0"` instead of dropping the bounty
silently with no error. -/
theorem claimBounty_zero_amount_counterexample :
    (ClaimBounty claimEnvZero 3).claimError = some ClaimErr.bountyAmountZero := by decide

/-- Witness for claim C6: a concrete zero-amount bounty yields no
submission, the nil hash and the zero-amount error. -/
theorem claimBounty_zero_amount_witness :
    ClaimBounty claimEnvZero2 4 = ⟨none, 0, some .bountyAmountZero⟩ :=
  claimBounty_zero_amount claimEnvZero2 4 5 ⟨0, 7⟩ rfl rfl rfl

/-! ## GetDataFromAPI (src/utils/api.go) -/

/-- Errors `GetDataFromAPI` can return: a transport error from
`client.Get`, the `"unable to reach API"` error it constructs on a
status code other than 200, or a body-read error. -/
inductive ApiErr where
  | netErr (code : Nat)
  | unableToReachAPI
  | readErr (code : Nat)
deriving DecidableEq

/-- An HTTP response as consumed by `GetDataFromAPI`: its status code
and the outcome of reading its body. -/
structure ApiResponse where
  statusCode : Nat
  bodyRead : Except Nat (List Nat)

/-- Outcome of one `client.Get(url)` call: either a transport failure or
a response. -/
inductive ApiAttempt where
  | netFail (code : Nat)
  | resp (r : ApiResponse)

/-- Body of the retried closure in `GetDataFromAPI`: transport errors
propagate, a status code other than 200 becomes the
`"unable to reach API"` error, otherwise the body is read. `env k` is
what the k-th GET attempt observes. -/
def apiTry (env : Nat → ApiAttempt) (k : Nat) : Except ApiErr (List Nat) :=
  match env k with
  | .netFail e => .error (.netErr e)
  | .resp r =>
    if r.statusCode ≠ 200 then .error .unableToReachAPI
    else
      match r.bodyRead with
      | .error c => .error (.readErr c)
      | .ok b => .ok b

/-- Configuration of the `retry-go` policy used by `GetDataFromAPI`:
`retry.Attempts(2)`, `retry.Delay(time.Second*2)`. -/
structure RetryPolicy where
  attempts : Nat
  delaySeconds : Nat
deriving DecidableEq

/-- `retry.Attempts(2), retry.Delay(time.Second*2)` from the source. -/
def apiRetryPolicy : RetryPolicy := ⟨2, 2⟩

/-- The `http.Client{Timeout: 10 * time.Second}` timeout, in seconds. -/
def apiTimeoutSeconds : Nat := 10

/-- `retry.Do` with a total attempt budget: run attempt `k`; on success
stop, otherwise retry with the remaining budget and return the last
error once the budget is exhausted. -/
def retryDo (f : Nat → Except ApiErr (List Nat)) (k : Nat) : Nat → Except ApiErr (List Nat)
  | 0 => f k
  | 1 => f k
  | n + 2 =>
    match f k with
    | .ok b => .ok b
    | .error _ => retryDo f (k + 1) (n + 1)

/-- Embedding of `GetDataFromAPI` (src/utils/api.go lines 13-39): the
GET attempt is retried under `apiRetryPolicy`; the response body is
returned on a 200 status. -/
def GetDataFromAPI (env : Nat → ApiAttempt) : Except ApiErr (List Nat) :=
  retryDo (apiTry env) 0 apiRetryPolicy.attempts

/-- Claim C8 (amended): `GetDataFromAPI` performs the GET with a
10-second client timeout and up to 2 attempts spaced 2 seconds apart; an
attempt succeeds only on status code exactly 200 (any other status —
including other 2xx codes — is the `"unable to reach API"` error), a
first failed attempt is retried once, and after both attempts fail the
last error is returned. -/
theorem getDataFromAPI_retry (env : Nat → ApiAttempt) (b : List Nat)
    (r : ApiResponse) (k : Nat) :
    apiRetryPolicy.attempts = 2 ∧
    apiRetryPolicy.delaySeconds = 2 ∧
    apiTimeoutSeconds = 10 ∧
    (env 0 = .resp ⟨200, .ok b⟩ → GetDataFromAPI env = .ok b) ∧
    (∀ e0, apiTry env 0 = .error e0 → env 1 = .resp ⟨200, .ok b⟩ →
      GetDataFromAPI env = .ok b) ∧
    (∀ e0 e1, apiTry env 0 = .error e0 → apiTry env 1 = .error e1 →
      GetDataFromAPI env = .error e1) ∧
    (env k = .resp r → r.statusCode ≠ 200 →
      apiTry env k = .error .unableToReachAPI) := by
  refine ⟨rfl, rfl, rfl, ?_, ?_, ?_, ?_⟩
  · intro h0
    have h : apiTry env 0 = .ok b := by simp [apiTry, h0]
    simp [GetDataFromAPI, apiRetryPolicy, retryDo, h]
  · intro e0 h0 h1
    have h : apiTry env 1 = .ok b := by simp [apiTry, h1]
    simp [GetDataFromAPI, apiRetryPolicy, retryDo, h0, h]
  · intro e0 e1 h0 h1
    simp [GetDataFromAPI, apiRetryPolicy, retryDo, h0, h1]
  · intro hk hne
    simp [apiTry, hk, hne]

def apiEnvRetryOk : Nat → ApiAttempt := fun k =>
  if k = 0 then .netFail 1 else .resp ⟨200, .ok [3]⟩

/-- Witness for claim C8: a transport failure on the first attempt
followed by a 200 response on the retry returns the body. -/
theorem getDataFromAPI_retry_witness : GetDataFromAPI apiEnvRetryOk = .ok [3] :=
  (getDataFromAPI_retry apiEnvRetryOk [3] ⟨200, .ok [3]⟩ 0).2.2.2.2.1
    (ApiErr.netErr 1) rfl rfl

def apiEnv201 : Nat → ApiAttempt := fun _ => .resp ⟨201, .ok [7]⟩

/-- Counterexample to claim C8 as stated: a 201 response is a 2xx
status, yet `GetDataFromAPI` rejects it with `"unable to reach API"` —
the code accepts only status 200, not all 2xx. -/
theorem getDataFromAPI_2xx_counterexample :
    (200 ≤ 201 ∧ 201 < 300) ∧
    GetDataFromAPI apiEnv201 = .error .unableToReachAPI :=
  ⟨by decide, rfl⟩

/-! ## GetDataFromJSON (src/utils/api.go lines 41-48) -/

/-- Embedding of `GetDataFromJSON`, with the Go string as a rune list
and the `jsonpath.Get` evaluator abstracted as `jsonPathGet` (the model
returns the selector string that is handed to it). The Go code indexes
`selector[0]` with no emptiness check, so the empty selector panics with
an index-out-of-range; the panic is modelled as `none`. `selector[0]`
is a byte comparison against `'['`, which for a UTF-8 string agrees
with comparing the first rune, since `'['` is ASCII. -/
def GetDataFromJSON {α : Type} (jsonPathGet : List Char → α) (selector : List Char) : Option α :=
  match selector with
  | [] => none
  | c :: rest =>
    if c = '[' then some (jsonPathGet ('$' :: c :: rest))
    else some (jsonPathGet ('$' :: '.' :: c :: rest))

/-- Claim C9: `GetDataFromJSON` panics (modelled as `none`) on the
empty selector, and for every non-empty selector evaluates the JSON
path obtained by prepending `"$"` when the first character is `'['` and
`"$."` otherwise. -/
theorem getDataFromJSON_selector {α : Type} (g : List Char → α) :
    GetDataFromJSON g [] = none ∧
    ∀ (c : Char) (rest : List Char),
      GetDataFromJSON g (c :: rest) =
        some (g (if c = '[' then '$' :: c :: rest else '$' :: '.' :: c :: rest)) := by
  refine ⟨rfl, ?_⟩
  intro c rest
  by_cases h : c = '[' <;> simp [GetDataFromJSON, h]

/-! ## strongPassword (src/unnamed/part_000 lines 53-71) -/

/-- Number of bytes of a rune's UTF-8 encoding; Go's `len(string)` sums
these. -/
def utf8Size (c : Char) : Nat :=
  if c.toNat < 128 then 1
  else if c.toNat < 2048 then 2
  else if c.toNat < 65536 then 3
  else 4

/-- Go's `len(input)` for a string modelled as a rune list: the UTF-8
byte count. -/
def goStrLen (s : List Char) : Nat := (s.map utf8Size).sum

/-- Model of `unicode.IsUpper`, exact on the Latin-1 range (the only
range this development evaluates; higher codepoints are mapped to
false). -/
def isUpperGo (c : Char) : Bool :=
  decide ((65 ≤ c.toNat ∧ c.toNat ≤ 90) ∨ (192 ≤ c.toNat ∧ c.toNat ≤ 214) ∨
    (216 ≤ c.toNat ∧ c.toNat ≤ 222))

/-- Model of `unicode.IsLower`, exact on the Latin-1 range. -/
def isLowerGo (c : Char) : Bool :=
  decide ((97 ≤ c.toNat ∧ c.toNat ≤ 122) ∨ c.toNat = 181 ∨
    (223 ≤ c.toNat ∧ c.toNat ≤ 246) ∨ (248 ≤ c.toNat ∧ c.toNat ≤ 255))

/-- Model of `unicode.IsNumber`, exact on the Latin-1 range. -/
def isNumberGo (c : Char) : Bool :=
  decide ((48 ≤ c.toNat ∧ c.toNat ≤ 57) ∨ c.toNat = 178 ∨ c.toNat = 179 ∨
    c.toNat = 185 ∨ (188 ≤ c.toNat ∧ c.toNat ≤ 190))

/-- Model of `unicode.IsPunct` (Unicode category P), exact on the
Latin-1 range. -/
def isPunctGo (c : Char) : Bool :=
  decide ((33 ≤ c.toNat ∧ c.toNat ≤ 35) ∨ (37 ≤ c.toNat ∧ c.toNat ≤ 42) ∨
    (44 ≤ c.toNat ∧ c.toNat ≤ 47) ∨ c.toNat = 58 ∨ c.toNat = 59 ∨
    c.toNat = 63 ∨ c.toNat = 64 ∨ (91 ≤ c.toNat ∧ c.toNat ≤ 93) ∨
    c.toNat = 95 ∨ c.toNat = 123 ∨ c.toNat = 125 ∨ c.toNat = 161 ∨
    c.toNat = 167 ∨ c.toNat = 171 ∨ c.toNat = 182 ∨ c.toNat = 183 ∨
    c.toNat = 187 ∨ c.toNat = 191)

/-- Model of `unicode.IsSymbol` (Unicode category S), exact on the
Latin-1 range. -/
def isSymbolGo (c : Char) : Bool :=
  decide (c.toNat = 36 ∨ c.toNat = 43 ∨ (60 ≤ c.toNat ∧ c.toNat ≤ 62) ∨
    c.toNat = 94 ∨ c.toNat = 96 ∨ c.toNat = 124 ∨ c.toNat = 126 ∨
    (162 ≤ c.toNat ∧ c.toNat ≤ 166) ∨ c.toNat = 168 ∨ c.toNat = 169 ∨
    c.toNat = 172 ∨ (174 ≤ c.toNat ∧ c.toNat ≤ 177) ∨ c.toNat = 180 ∨
    c.toNat = 184 ∨ c.toNat = 215 ∨ c.toNat = 247)

/-- The four counters `l, u, p, d` of `strongPassword`. -/
structure PwCounts where
  l : Nat
  u : Nat
  p : Nat
  d : Nat
deriving DecidableEq

/-- One step of the `switch` in `strongPassword`'s range loop: the first
matching class is incremented. -/
def pwBump (acc : PwCounts) (c : Char) : PwCounts :=
  if isUpperGo c then { acc with u := acc.u + 1 }
  else if isLowerGo c then { acc with l := acc.l + 1 }
  else if isNumberGo c then { acc with d := acc.d + 1 }
  else if isPunctGo c || isSymbolGo c then { acc with p := acc.p + 1 }
  else acc

/-- Embedding of `strongPassword` (src/unnamed/part_000 lines 53-71).
Note `len(input)` is the byte count while the `range` loop walks runes;
the counters are only accumulated when the byte count is at least 8. -/
def strongPassword (input : List Char) : Bool :=
  let acc := if 8 ≤ goStrLen input then input.foldl pwBump ⟨0, 0, 0, 0⟩ else ⟨0, 0, 0, 0⟩
  decide (1 ≤ acc.l ∧ 1 ≤ acc.u ∧ 1 ≤ acc.p ∧ 1 ≤ acc.d ∧
    acc.l + acc.u + acc.p + acc.d = goStrLen input)

/-- The `switch`'s second branch fires for lowercase runes that are not
uppercase. -/
def chainLower (c : Char) : Bool := !isUpperGo c && isLowerGo c

/-- The `switch`'s third branch. -/
def chainNumber (c : Char) : Bool := !isUpperGo c && !isLowerGo c && isNumberGo c

/-- The `switch`'s fourth branch. -/
def chainPunct (c : Char) : Bool :=
  !isUpperGo c && !isLowerGo c && !isNumberGo c && (isPunctGo c || isSymbolGo c)

/-- A rune counted by some branch of the `switch`. -/
def classifiedGo (c : Char) : Bool :=
  isUpperGo c || isLowerGo c || isNumberGo c || isPunctGo c || isSymbolGo c

lemma pw_foldl (s : List Char) (acc : PwCounts) :
    (s.foldl pwBump acc).u = acc.u + s.countP isUpperGo ∧
    (s.foldl pwBump acc).l = acc.l + s.countP chainLower ∧
    (s.foldl pwBump acc).d = acc.d + s.countP chainNumber ∧
    (s.foldl pwBump acc).p = acc.p + s.countP chainPunct := by
  induction s generalizing acc with
  | nil => simp
  | cons c rest ih =>
    obtain ⟨h1, h2, h3, h4⟩ := ih (pwBump acc c)
    simp only [List.foldl_cons, List.countP_cons]
    by_cases hU : isUpperGo c <;> by_cases hL : isLowerGo c <;>
      by_cases hN : isNumberGo c <;> by_cases hP : (isPunctGo c || isSymbolGo c) <;>
      simp [pwBump, chainLower, chainNumber, chainPunct, hU, hL, hN, hP] at h1 h2 h3 h4 ⊢ <;>
      omega

lemma pw_partition (s : List Char) :
    s.countP isUpperGo + s.countP chainLower + s.countP chainNumber + s.countP chainPunct
      = s.countP classifiedGo := by
  induction s with
  | nil => simp
  | cons c rest ih =>
    simp only [List.countP_cons]
    by_cases hU : isUpperGo c <;> by_cases hL : isLowerGo c <;>
      by_cases hN : isNumberGo c <;> by_cases hP : isPunctGo c <;>
      by_cases hS : isSymbolGo c <;>
      simp [chainLower, chainNumber, chainPunct, classifiedGo, hU, hL, hN, hP, hS] <;>
      omega

lemma ascii_chainLower (c : Char) (h : c.toNat < 128) : chainLower c = isLowerGo c := by
  unfold chainLower
  cases hl : isLowerGo c
  · simp
  · suffices hu : isUpperGo c = false by simp [hu]
    simp only [isLowerGo, decide_eq_true_eq] at hl
    simp only [isUpperGo, decide_eq_false_iff_not]
    omega

lemma ascii_chainNumber (c : Char) (h : c.toNat < 128) : chainNumber c = isNumberGo c := by
  unfold chainNumber
  cases hn : isNumberGo c
  · simp
  · simp only [isNumberGo, decide_eq_true_eq] at hn
    have hu : isUpperGo c = false := by
      simp only [isUpperGo, decide_eq_false_iff_not]; omega
    have hl : isLowerGo c = false := by
      simp only [isLowerGo, decide_eq_false_iff_not]; omega
    simp [hu, hl]

lemma ascii_chainPunct (c : Char) (h : c.toNat < 128) :
    chainPunct c = (isPunctGo c || isSymbolGo c) := by
  unfold chainPunct
  cases hp : (isPunctGo c || isSymbolGo c)
  · simp
  · have hps : (33 ≤ c.toNat ∧ c.toNat ≤ 47) ∨ (58 ≤ c.toNat ∧ c.toNat ≤ 64) ∨
        (91 ≤ c.toNat ∧ c.toNat ≤ 96) ∨ (123 ≤ c.toNat ∧ c.toNat ≤ 126) := by
      rcases Bool.or_eq_true_iff.mp hp with hx | hx
      · simp only [isPunctGo, decide_eq_true_eq] at hx; omega
      · simp only [isSymbolGo, decide_eq_true_eq] at hx; omega
    have hu : isUpperGo c = false := by
      simp only [isUpperGo, decide_eq_false_iff_not]; omega
    have hl : isLowerGo c = false := by
      simp only [isLowerGo, decide_eq_false_iff_not]; omega
    have hn : isNumberGo c = false := by
      simp only [isNumberGo, decide_eq_false_iff_not]; omega
    simp [hu, hl, hn]

lemma goStrLen_ascii (s : List Char) (h : ∀ c ∈ s, c.toNat < 128) :
    goStrLen s = s.length := by
  induction s with
  | nil => rfl
  | cons c rest ih =>
    have hc : c.toNat < 128 := h c (by simp)
    have hr := ih (fun x hx => h x (by simp [hx]))
    simp only [goStrLen, List.map_cons, List.sum_cons, List.length_cons] at hr ⊢
    rw [show utf8Size c = 1 from by simp [utf8Size, hc], hr]
    omega

/-- Claim C10 (amended): for every ASCII input (each rune below U+0080,
so the byte length equals the rune count), `strongPassword` returns
true iff the input has length at least 8, contains at least one
lowercase letter, one uppercase letter, one digit, and one punctuation
or symbol character, and every character belongs to one of those four
classes. For non-ASCII input the equivalence fails, because the code
compares the rune-class counts against the byte length. -/
theorem strongPassword_spec (s : List Char) (hascii : ∀ c ∈ s, c.toNat < 128) :
    strongPassword s = true ↔
      (8 ≤ s.length ∧ (∃ c ∈ s, isLowerGo c) ∧ (∃ c ∈ s, isUpperGo c) ∧
        (∃ c ∈ s, isNumberGo c) ∧ (∃ c ∈ s, (isPunctGo c || isSymbolGo c)) ∧
        (∀ c ∈ s, classifiedGo c)) := by
  have hlen : goStrLen s = s.length := goStrLen_ascii s hascii
  have hcL : s.countP chainLower = s.countP isLowerGo :=
    List.countP_congr (fun x hx => by rw [ascii_chainLower x (hascii x hx)])
  have hcN : s.countP chainNumber = s.countP isNumberGo :=
    List.countP_congr (fun x hx => by rw [ascii_chainNumber x (hascii x hx)])
  have hcP : s.countP chainPunct = s.countP (fun c => isPunctGo c || isSymbolGo c) :=
    List.countP_congr (fun x hx => by rw [ascii_chainPunct x (hascii x hx)])
  have hpart := pw_partition s
  by_cases h8 : 8 ≤ goStrLen s
  · obtain ⟨hu, hl, hd, hp⟩ := pw_foldl s ⟨0, 0, 0, 0⟩
    unfold strongPassword
    rw [if_pos h8]
    simp only [decide_eq_true_eq]
    rw [hu, hl, hd, hp]
    simp only [Nat.zero_add]
    constructor
    · rintro ⟨g1, g2, g3, g4, g5⟩
      have hclass : s.countP classifiedGo = s.length := by omega
      refine ⟨by omega, ?_, ?_, ?_, ?_, ?_⟩
      · exact List.countP_pos_iff.mp (by omega)
      · exact List.countP_pos_iff.mp (by omega)
      · exact List.countP_pos_iff.mp (by omega)
      · exact List.countP_pos_iff.mp (by omega)
      · exact List.countP_eq_length.mp hclass
    · rintro ⟨g1, g2, g3, g4, g5, g6⟩
      have e2 : 0 < s.countP isLowerGo := List.countP_pos_iff.mpr g2
      have e3 : 0 < s.countP isUpperGo := List.countP_pos_iff.mpr g3
      have e4 : 0 < s.countP isNumberGo := List.countP_pos_iff.mpr g4
      have e5 : 0 < s.countP (fun c => isPunctGo c || isSymbolGo c) :=
        List.countP_pos_iff.mpr g5
      have e6 : s.countP classifiedGo = s.length := List.countP_eq_length.mpr g6
      omega
  · unfold strongPassword
    rw [if_neg h8]
    simp only [decide_eq_true_eq]
    constructor
    · intro hcontra
      simp at hcontra
    · rintro ⟨g1, -⟩
      rw [hlen] at h8
      exact absurd g1 h8

def pwGood : List Char := ['A', 'b', 'c', 'd', '1', '2', '!', '@']

/-- Witness for claim C10: a concrete ASCII password with all four
classes present is accepted. -/
theorem strongPassword_spec_witness : strongPassword pwGood = true :=
  (strongPassword_spec pwGood (by decide)).mpr (by decide)

def pwCex : List Char := ['Á', 'a', '1', '!', 'a', 'a', 'a', 'a']

/-- Counterexample to claim C10 as stated: the 8-rune password
`"Áa1!aaaa"` has an uppercase letter, lowercase letters, a digit and a
punctuation character, every rune falls in one of the four classes, and
its length is at least 8 under either reading (8 runes, 9 bytes) — yet
`strongPassword` rejects it, because `len(input)` counts bytes (9)
while the loop counts runes (8). -/
theorem strongPassword_counterexample :
    strongPassword pwCex = false ∧
    8 ≤ pwCex.length ∧ 8 ≤ goStrLen pwCex ∧
    (∃ c ∈ pwCex, isLowerGo c) ∧ (∃ c ∈ pwCex, isUpperGo c) ∧
    (∃ c ∈ pwCex, isNumberGo c) ∧ (∃ c ∈ pwCex, (isPunctGo c || isSymbolGo c)) ∧
    (∀ c ∈ pwCex, classifiedGo c) := by decide

/-! ## Dispute engine (spec §4.7)

The dispute-engine implementation (`HandleDispute`, `CheckDisputeForIds`,
`GiveSorted`) is not among the sources — only its test file is — so the
definitions below are modelled from the specification, cross-checked
against the expectations of `TestHandleDispute`, `TestCheckDisputeForIds`
and `TestGiveSorted`. -/

/-- The id-level dispute sub-classes of spec §4.7.2 class 2. -/
inductive IdDispute where
  | orderOfIds (i j : Nat)
  | shouldBePresent (missingId : Nat)
  | shouldBeAbsent (extraId pos : Nat)
deriving DecidableEq

/-- Index of the first adjacent pair at which a list stops being
strictly ascending. -/
def firstNonAscent : List Nat → Option Nat
  | a :: b :: rest => if b ≤ a then some 0 else (firstNonAscent (b :: rest)).map (· + 1)
  | _ => none

/-- First element of `revealed` that is missing from `ids`. -/
def firstMissingFrom (revealed ids : List Nat) : Option Nat :=
  revealed.find? (fun r => decide (r ∉ ids))

/-- First element of the block's id list (with its position) that is not
among the revealed ids. -/
def firstExtraAux (revealed : List Nat) (pos : Nat) : List Nat → Option (Nat × Nat)
  | [] => none
  | x :: rest =>
    if x ∈ revealed then firstExtraAux revealed (pos + 1) rest
    else some (x, pos)

/-- Modelled from the spec: the id-dispute selection of
`CheckDisputeForIds` (§4.7.2 class 2), without the transaction plumbing:
order-of-ids violations take priority, then a required id that is
missing, then an extra id, else no dispute. -/
def idDisputeOf (idsInProposedBlock revealedCollectionIds : List Nat) : Option IdDispute :=
  match firstNonAscent idsInProposedBlock with
  | some i => some (.orderOfIds i (i + 1))
  | none =>
    match firstMissingFrom revealedCollectionIds idsInProposedBlock with
    | some m => some (.shouldBePresent m)
    | none =>
      match firstExtraAux revealedCollectionIds 0 idsInProposedBlock with
      | some (x, pos) => some (.shouldBeAbsent x pos)
      | none => none

/-- A dispute transaction built by `CheckDisputeForIds`; the present and
absent variants record the increased gas limit they are submitted
with. -/
inductive IdDisputeTxn where
  | disputeOnOrderOfIds (epoch blockIndex i j : Nat)
  | disputeCollectionIdShouldBePresent (epoch blockIndex missingId gasLimit : Nat)
  | disputeCollectionIdShouldBeAbsent (epoch blockIndex extraId pos gasLimit : Nat)
deriving DecidableEq

/-- Modelled from the spec: `CheckDisputeForIds` (§4.7.2 class 2 with
the §4.7.4 gas bump). `incGas` is the outcome of the
`IncreaseGasLimitValue` call; it is required (and its failure aborts
with an error and no transaction) exactly for the present/absent
sub-classes, per TestCheckDisputeForIds. -/
def CheckDisputeForIds (incGas : Except Nat Nat) (epoch blockIndex : Nat)
    (idsInProposedBlock revealedCollectionIds : List Nat) :
    Except Nat (Option IdDisputeTxn) :=
  match idDisputeOf idsInProposedBlock revealedCollectionIds with
  | some (.orderOfIds i j) => .ok (some (.disputeOnOrderOfIds epoch blockIndex i j))
  | some (.shouldBePresent m) =>
    match incGas with
    | .error e => .error e
    | .ok g => .ok (some (.disputeCollectionIdShouldBePresent epoch blockIndex m g))
  | some (.shouldBeAbsent x pos) =>
    match incGas with
    | .error e => .error e
    | .ok g => .ok (some (.disputeCollectionIdShouldBeAbsent epoch blockIndex x pos g))
  | none => .ok none

example : CheckDisputeForIds (.ok 2000) 4 1 [1, 3, 2] [1, 2, 3]
    = .ok (some (.disputeOnOrderOfIds 4 1 1 2)) := rfl

example : CheckDisputeForIds (.ok 2000) 4 1 [1, 2, 4] [1, 2, 3]
    = .ok (some (.disputeCollectionIdShouldBePresent 4 1 3 2000)) := rfl

example : CheckDisputeForIds (.error 9) 4 1 [1, 2, 4] [1, 2, 3] = .error 9 := rfl

example : CheckDisputeForIds (.ok 2000) 4 1 [1, 2, 3, 4] [1, 2, 3]
    = .ok (some (.disputeCollectionIdShouldBeAbsent 4 1 4 3 2000)) := rfl

example : CheckDisputeForIds (.error 9) 4 1 [1, 2, 3, 4] [1, 2, 3] = .error 9 := rfl

example : CheckDisputeForIds (.ok 2000) 4 1 [1, 2, 3] [1, 2, 3] = .ok none := rfl

/-- `i` is the index of the first adjacent descending pair of `l`: the
pair at `(i, i+1)` is not ascending while every earlier adjacent pair
is. -/
def IsFirstDescentAt (l : List Nat) (i : Nat) : Prop :=
  (∃ a b, l[i]? = some a ∧ l[i + 1]? = some b ∧ b ≤ a) ∧
  ∀ k, k < i → ∃ x y, l[k]? = some x ∧ l[k + 1]? = some y ∧ x < y

lemma firstNonAscent_cons2 (a b : Nat) (rest : List Nat) :
    firstNonAscent (a :: b :: rest)
      = if b ≤ a then some 0 else (firstNonAscent (b :: rest)).map (· + 1) := rfl

lemma firstNonAscent_none_iff (l : List Nat) :
    firstNonAscent l = none ↔ List.Chain' (· < ·) l := by
  induction l with
  | nil => simp [firstNonAscent]
  | cons a rest ih =>
    cases rest with
    | nil => simp [firstNonAscent]
    | cons b rest2 =>
      rw [List.chain'_cons, ← ih, firstNonAscent_cons2]
      by_cases hba : b ≤ a
      · rw [if_pos hba]
        constructor
        · intro h
          simp at h
        · rintro ⟨h1, -⟩
          exact absurd h1 (by omega)
      · rw [if_neg hba]
        constructor
        · intro h
          refine ⟨by omega, ?_⟩
          cases hfa : firstNonAscent (b :: rest2) with
          | none => rfl
          | some k => rw [hfa] at h; simp at h
        · rintro ⟨-, h⟩
          rw [h]
          rfl

lemma firstNonAscent_of_descent (l : List Nat) (i : Nat) (h : IsFirstDescentAt l i) :
    firstNonAscent l = some i := by
  induction l generalizing i with
  | nil =>
    obtain ⟨⟨a, b, ha, hb, hba⟩, hmin⟩ := h
    simp at ha
  | cons x rest ih =>
    cases rest with
    | nil =>
      obtain ⟨⟨a, b, ha, hb, hba⟩, hmin⟩ := h
      simp at hb
    | cons y rest2 =>
      obtain ⟨⟨a, b, ha, hb, hba⟩, hmin⟩ := h
      cases i with
      | zero =>
        have ha2 : x = a := by simpa using ha
        have hb2 : y = b := by simpa using hb
        subst ha2
        subst hb2
        rw [firstNonAscent_cons2, if_pos hba]
      | succ k =>
        obtain ⟨p, q, hp, hq, hpq⟩ := hmin 0 (Nat.succ_pos k)
        have hp2 : x = p := by simpa using hp
        have hq2 : y = q := by simpa using hq
        subst hp2
        subst hq2
        rw [firstNonAscent_cons2, if_neg (by omega)]
        have hrec : firstNonAscent (y :: rest2) = some k := by
          apply ih
          constructor
          · exact ⟨a, b, by simpa using ha, by simpa using hb, hba⟩
          · intro k2 hk2
            obtain ⟨x2, y2, hx2, hy2, hxy2⟩ := hmin (k2 + 1) (by omega)
            exact ⟨x2, y2, by simpa using hx2, by simpa using hy2, hxy2⟩
        rw [hrec]
        rfl

lemma findFirst_split {α : Type} (p : α → Bool) (pre : List α) (m : α)
    (post : List α) (hpre : ∀ r ∈ pre, p r = false) (hm : p m = true) :
    (pre ++ m :: post).find? p = some m := by
  induction pre with
  | nil => simp [List.find?_cons, hm]
  | cons a rest ih =>
    have ha : p a = false := hpre a (by simp)
    simp only [List.cons_append, List.find?_cons, ha]
    exact ih (fun r hr => hpre r (by simp [hr]))

lemma firstExtraAux_split (revealed pre : List Nat) (x : Nat) (post : List Nat)
    (n : Nat) (hpre : ∀ y ∈ pre, y ∈ revealed) (hx : x ∉ revealed) :
    firstExtraAux revealed n (pre ++ x :: post) = some (x, n + pre.length) := by
  induction pre generalizing n with
  | nil => simp [firstExtraAux, hx]
  | cons a rest ih =>
    have ha : a ∈ revealed := hpre a (by simp)
    simp only [List.cons_append, firstExtraAux, if_pos ha, List.append_eq]
    rw [ih (n + 1) (fun y hy => hpre y (by simp [hy]))]
    simp
    omega

lemma firstExtraAux_none (revealed l : List Nat) (n : Nat)
    (h : ∀ y ∈ l, y ∈ revealed) : firstExtraAux revealed n l = none := by
  induction l generalizing n with
  | nil => rfl
  | cons a rest ih =>
    have ha : a ∈ revealed := h a (by simp)
    simp only [firstExtraAux, if_pos ha]
    exact ih (n + 1) (fun y hy => h y (by simp [hy]))

/-- Claim C2: `CheckDisputeForIds` selects the id-dispute sub-class in
this order: a block id list that is not strictly ascending yields
`disputeOnOrderOfIds` at the indices of the first descending pair;
otherwise the first revealed id missing from the block yields
`disputeCollectionIdShouldBePresent`; otherwise the first extra id in
the block yields `disputeCollectionIdShouldBeAbsent` with its position;
and equal ordered sets yield no dispute transaction. -/
theorem checkDisputeForIds_cases (incGas : Except Nat Nat) (e bi : Nat)
    (ids revealed : List Nat) :
    (∀ i, IsFirstDescentAt ids i →
      CheckDisputeForIds incGas e bi ids revealed
        = .ok (some (.disputeOnOrderOfIds e bi i (i + 1)))) ∧
    (List.Chain' (· < ·) ids →
      ∀ pre m post, revealed = pre ++ m :: post → m ∉ ids → (∀ r ∈ pre, r ∈ ids) →
        ∀ g, incGas = .ok g →
        CheckDisputeForIds incGas e bi ids revealed
          = .ok (some (.disputeCollectionIdShouldBePresent e bi m g))) ∧
    (List.Chain' (· < ·) ids → (∀ r ∈ revealed, r ∈ ids) →
      ∀ pre x post, ids = pre ++ x :: post → x ∉ revealed → (∀ y ∈ pre, y ∈ revealed) →
        ∀ g, incGas = .ok g →
        CheckDisputeForIds incGas e bi ids revealed
          = .ok (some (.disputeCollectionIdShouldBeAbsent e bi x pre.length g))) ∧
    (ids = revealed → List.Chain' (· < ·) ids →
      CheckDisputeForIds incGas e bi ids revealed = .ok none) := by
  refine ⟨?_, ?_, ?_, ?_⟩
  · intro i hi
    unfold CheckDisputeForIds idDisputeOf
    rw [firstNonAscent_of_descent ids i hi]
  · intro hasc pre m post hrev hm hpre g hg
    have hna : firstNonAscent ids = none := (firstNonAscent_none_iff ids).mpr hasc
    have hfm : firstMissingFrom revealed ids = some m := by
      unfold firstMissingFrom
      rw [hrev]
      exact findFirst_split _ pre m post
        (fun r hr => by simp [hpre r hr]) (by simp [hm])
    unfold CheckDisputeForIds idDisputeOf
    rw [hna, hfm, hg]
  · intro hasc hall pre x post hids hx hpre g hg
    have hna : firstNonAscent ids = none := (firstNonAscent_none_iff ids).mpr hasc
    have hfm : firstMissingFrom revealed ids = none := by
      unfold firstMissingFrom
      rw [List.find?_eq_none]
      intro r hr
      simp [hall r hr]
    have hfe : firstExtraAux revealed 0 ids = some (x, pre.length) := by
      rw [hids]
      rw [firstExtraAux_split revealed pre x post 0 hpre hx]
      simp
    unfold CheckDisputeForIds idDisputeOf
    rw [hna, hfm, hfe, hg]
  · intro heq hasc
    have hna : firstNonAscent ids = none := (firstNonAscent_none_iff ids).mpr hasc
    have hfm : firstMissingFrom revealed ids = none := by
      unfold firstMissingFrom
      rw [List.find?_eq_none]
      intro r hr
      rw [← heq] at hr
      simp [hr]
    have hfe : firstExtraAux revealed 0 ids = none :=
      firstExtraAux_none revealed ids 0 (fun y hy => heq ▸ hy)
    unfold CheckDisputeForIds idDisputeOf
    rw [hna, hfm, hfe]

/-- Witness for claim C2: the block ids `[1,3,2]` against revealed
`[1,2,3]` raise the order dispute at indices `(1,2)`, and equal lists
raise nothing. -/
theorem checkDisputeForIds_cases_witness :
    CheckDisputeForIds (.ok 2000) 4 1 [1, 3, 2] [1, 2, 3]
      = .ok (some (.disputeOnOrderOfIds 4 1 1 2)) ∧
    CheckDisputeForIds (.ok 2000) 4 1 [1, 2, 3] [1, 2, 3] = .ok none := by
  constructor
  · have h : IsFirstDescentAt [1, 3, 2] 1 := by
      constructor
      · exact ⟨3, 2, rfl, rfl, by omega⟩
      · intro k hk
        interval_cases k
        exact ⟨1, 3, rfl, rfl, by omega⟩
    exact (checkDisputeForIds_cases (.ok 2000) 4 1 [1, 3, 2] [1, 2, 3]).1 1 h
  · have hc : List.Chain' (· < ·) [1, 2, 3] := by
      rw [List.chain'_cons, List.chain'_cons]
      exact ⟨by omega, by omega, List.chain'_singleton 3⟩
    exact (checkDisputeForIds_cases (.ok 2000) 4 1 [1, 2, 3] [1, 2, 3]).2.2.2 rfl hc

/-- Claim C4: every present/absent dispute transaction produced by
`CheckDisputeForIds` carries a gas limit that was obtained from the
(successful) gas-limit increase call, and when that call fails while the
selected sub-class is present/absent, `CheckDisputeForIds` returns the
error and no transaction. -/
theorem checkDisputeForIds_gas (incGas : Except Nat Nat) (e bi : Nat)
    (ids revealed : List Nat) :
    (∀ txn, CheckDisputeForIds incGas e bi ids revealed = .ok (some txn) →
      (∀ ep bj m g, txn = .disputeCollectionIdShouldBePresent ep bj m g → incGas = .ok g) ∧
      (∀ ep bj x pos g, txn = .disputeCollectionIdShouldBeAbsent ep bj x pos g → incGas = .ok g)) ∧
    (∀ err, incGas = .error err →
      (∀ m, idDisputeOf ids revealed = some (.shouldBePresent m) →
        CheckDisputeForIds incGas e bi ids revealed = .error err) ∧
      (∀ x pos, idDisputeOf ids revealed = some (.shouldBeAbsent x pos) →
        CheckDisputeForIds incGas e bi ids revealed = .error err)) := by
  constructor
  · intro txn htxn
    unfold CheckDisputeForIds at htxn
    constructor
    · rintro ep bj m g rfl
      cases hd : idDisputeOf ids revealed with
      | none =>
        rw [hd] at htxn
        simp at htxn
      | some d =>
        rw [hd] at htxn
        cases d with
        | orderOfIds i j => simp at htxn
        | shouldBePresent m2 =>
          cases hg : incGas with
          | error e2 =>
            rw [hg] at htxn
            simp at htxn
          | ok g2 =>
            rw [hg] at htxn
            simp only [Except.ok.injEq, Option.some.injEq,
              IdDisputeTxn.disputeCollectionIdShouldBePresent.injEq] at htxn
            rw [htxn.2.2.2]
        | shouldBeAbsent x pos =>
          cases hg : incGas with
          | error e2 =>
            rw [hg] at htxn
            simp at htxn
          | ok g2 =>
            rw [hg] at htxn
            simp at htxn
    · rintro ep bj x pos g rfl
      cases hd : idDisputeOf ids revealed with
      | none =>
        rw [hd] at htxn
        simp at htxn
      | some d =>
        rw [hd] at htxn
        cases d with
        | orderOfIds i j => simp at htxn
        | shouldBePresent m2 =>
          cases hg : incGas with
          | error e2 =>
            rw [hg] at htxn
            simp at htxn
          | ok g2 =>
            rw [hg] at htxn
            simp at htxn
        | shouldBeAbsent x2 pos2 =>
          cases hg : incGas with
          | error e2 =>
            rw [hg] at htxn
            simp at htxn
          | ok g2 =>
            rw [hg] at htxn
            simp only [Except.ok.injEq, Option.some.injEq,
              IdDisputeTxn.disputeCollectionIdShouldBeAbsent.injEq] at htxn
            rw [htxn.2.2.2.2]
  · intro err herr
    constructor
    · intro m hm
      unfold CheckDisputeForIds
      rw [hm, herr]
    · intro x pos hxp
      unfold CheckDisputeForIds
      rw [hxp, herr]

/-- Witness for claim C4: with block ids `[1,2,4]` against revealed
`[1,2,3]` (a missing-id case), a failing gas increase aborts with its
error, and a successful one of 2000 is the gas limit of the submitted
present-dispute transaction. -/
theorem checkDisputeForIds_gas_witness :
    CheckDisputeForIds (.error 9) 4 1 [1, 2, 4] [1, 2, 3] = .error 9 ∧
    (Except.ok 2000 : Except Nat Nat) = .ok 2000 := by
  constructor
  · exact ((checkDisputeForIds_gas (.error 9) 4 1 [1, 2, 4] [1, 2, 3]).2 9 rfl).1 3 rfl
  · exact ((checkDisputeForIds_gas (.ok 2000) 4 1 [1, 2, 4] [1, 2, 3]).1
      (.disputeCollectionIdShouldBePresent 4 1 3 2000) rfl).1 4 1 3 2000 rfl

/-- On-chain proposed block as read by the dispute pass (spec §3
`StructsBlock`, fields the dispute checks consult). -/
structure StructsBlock where
  valid : Bool
  biggestStake : Nat
  ids : List Nat
  medians : List Nat
deriving DecidableEq

/-- The locally recomputed canonical data the dispute pass compares each
block against: chain-derived biggest stake, revealed collection ids and
canonical medians (spec §4.7.1). -/
structure ChainTruth where
  biggestStake : Nat
  revealedCollectionIds : List Nat
  medians : List Nat
deriving DecidableEq

/-- The dispute classes of spec §4.7.2, in priority order. -/
inductive DisputeClass where
  | biggestStakeMismatch
  | idsMismatch (d : IdDispute)
  | medianMismatch (idx : Nat)
deriving DecidableEq

/-- Index of the first position at which two lists disagree. -/
def firstDiff : List Nat → List Nat → Option Nat
  | a :: as, b :: bs => if a ≠ b then some 0 else (firstDiff as bs).map (· + 1)
  | _, _ => none

/-- Modelled from the spec: the per-block dispute-class choice of
`HandleDispute` (§4.7.2): biggest-stake mismatch first, then the
collection-id set checks, then the median comparison; an invalid block
(class 4) is skipped at the median stage, as the contract already
rejects it. -/
def disputeClassOf (t : ChainTruth) (b : StructsBlock) : Option DisputeClass :=
  if b.biggestStake ≠ t.biggestStake then some .biggestStakeMismatch
  else
    match idDisputeOf b.ids t.revealedCollectionIds with
    | some d => some (.idsMismatch d)
    | none =>
      if b.valid then
        match firstDiff b.medians t.medians with
        | some i => some (.medianMismatch i)
        | none => none
      else none

/-- Result of submitting a dispute transaction: mined, or reverted
(with the benign flag of §4.7.6: "already disputed", "not a
dispute"). -/
inductive SubmitRes where
  | mined (hash : Nat)
  | reverted (benign : Bool)
deriving DecidableEq

/-- External calls of the per-block dispute loop: fetching a proposed
block by id (`GetProposedBlock`) and submitting the dispute transaction
chosen for it. -/
structure DisputeEnv where
  getBlock : Nat → Except Nat StructsBlock
  submit : Nat → DisputeClass → SubmitRes

/-- Modelled from the spec: the per-block loop of `HandleDispute` over
the (shuffled) proposed-block ids. A block whose fetch fails is logged
and skipped (TestHandleDispute Test 4); otherwise the dispute class is
chosen and, when one fires, its transaction is submitted; submission
failures are logged and the loop continues (§4.7.6,
TestHandleDispute Tests 5, 8, 13). The trace records each examined
block, its chosen class and the submission result. -/
def handleDisputeLoop (t : ChainTruth) (env : DisputeEnv) :
    List Nat → List (Nat × Option DisputeClass × Option SubmitRes)
  | [] => []
  | id :: rest =>
    match env.getBlock id with
    | .error _ => handleDisputeLoop t env rest
    | .ok b =>
      match disputeClassOf t b with
      | none => (id, none, none) :: handleDisputeLoop t env rest
      | some c => (id, some c, some (env.submit id c)) :: handleDisputeLoop t env rest

/-- Modelled from the spec: `HandleDispute` for one epoch. Errors
obtaining `sortedProposedBlockIds` or the local canonical data
propagate (TestHandleDispute Tests 3, 7, 9); the per-block loop itself
never fails. -/
def HandleDispute (sortedProposedBlockIds : Except Nat (List Nat))
    (localData : Except Nat ChainTruth) (env : DisputeEnv) :
    Except Nat (List (Nat × Option DisputeClass × Option SubmitRes)) :=
  match sortedProposedBlockIds with
  | .error e => .error e
  | .ok ids =>
    match localData with
    | .error e => .error e
    | .ok t => .ok (handleDisputeLoop t env ids)

/-- A block is malformed when some dispute class applies to it: wrong
biggest stake, an id-set violation, or (for valid blocks) a median
mismatch. -/
def Malformed (t : ChainTruth) (b : StructsBlock) : Prop :=
  b.biggestStake ≠ t.biggestStake ∨
  (idDisputeOf b.ids t.revealedCollectionIds).isSome = true ∨
  (b.valid = true ∧ (firstDiff b.medians t.medians).isSome = true)

lemma handleDisputeLoop_skip (t : ChainTruth) (env : DisputeEnv) (id : Nat)
    (rest : List Nat) (e : Nat) (h : env.getBlock id = .error e) :
    handleDisputeLoop t env (id :: rest) = handleDisputeLoop t env rest := by
  simp only [handleDisputeLoop, h]

lemma handleDisputeLoop_clean (t : ChainTruth) (env : DisputeEnv) (id : Nat)
    (rest : List Nat) (b : StructsBlock) (h : env.getBlock id = .ok b)
    (hc : disputeClassOf t b = none) :
    handleDisputeLoop t env (id :: rest)
      = (id, none, none) :: handleDisputeLoop t env rest := by
  simp only [handleDisputeLoop, h, hc]

lemma handleDisputeLoop_fire (t : ChainTruth) (env : DisputeEnv) (id : Nat)
    (rest : List Nat) (b : StructsBlock) (c : DisputeClass)
    (h : env.getBlock id = .ok b) (hc : disputeClassOf t b = some c) :
    handleDisputeLoop t env (id :: rest)
      = (id, some c, some (env.submit id c)) :: handleDisputeLoop t env rest := by
  simp only [handleDisputeLoop, h, hc]

/-- Claim C1: for every block examined by the dispute pass, exactly one
dispute class is chosen per malformed block, in the fixed priority
order biggest-stake mismatch, then collection-id mismatch, then median
mismatch; once an earlier class fires the later ones are not consulted
(the biggest-stake conclusion holds whatever the ids and medians are,
and the ids conclusion whatever the medians are); and each examined
block of the per-block loop is recorded with exactly this class. -/
theorem handleDispute_priority (t : ChainTruth) (b : StructsBlock) :
    ((disputeClassOf t b).isSome = true ↔ Malformed t b) ∧
    (b.biggestStake ≠ t.biggestStake →
      disputeClassOf t b = some .biggestStakeMismatch) ∧
    (b.biggestStake = t.biggestStake →
      ∀ d, idDisputeOf b.ids t.revealedCollectionIds = some d →
        disputeClassOf t b = some (.idsMismatch d)) ∧
    (b.biggestStake = t.biggestStake →
      idDisputeOf b.ids t.revealedCollectionIds = none → b.valid = true →
      ∀ i, firstDiff b.medians t.medians = some i →
        disputeClassOf t b = some (.medianMismatch i)) ∧
    (∀ env ids id b2, env.getBlock id = .ok b2 → id ∈ ids →
      ∃ r, (id, disputeClassOf t b2, r) ∈ handleDisputeLoop t env ids) := by
  refine ⟨?_, ?_, ?_, ?_, ?_⟩
  · unfold disputeClassOf Malformed
    by_cases hst : b.biggestStake ≠ t.biggestStake
    · simp [hst]
    · cases hid : idDisputeOf b.ids t.revealedCollectionIds with
      | some d => simp [hst, hid]
      | none =>
        cases hv : b.valid with
        | true =>
          cases hfd : firstDiff b.medians t.medians with
          | some i => simp [hst, hid, hv, hfd]
          | none => simp [hst, hid, hv, hfd]
        | false => simp [hst, hid, hv]
  · intro hst
    unfold disputeClassOf
    rw [if_pos hst]
  · intro hst d hd
    simp [disputeClassOf, hst, hd]
  · intro hst hid hv i hi
    simp [disputeClassOf, hst, hid, hv, hi]
  · intro env ids id b2 hgb hmem
    induction ids with
    | nil => simp at hmem
    | cons a rest ih =>
      rcases List.mem_cons.mp hmem with rfl | hmem2
      · cases hc : disputeClassOf t b2 with
        | none =>
          rw [handleDisputeLoop_clean t env id rest b2 hgb hc]
          exact ⟨none, List.mem_cons_self _ _⟩
        | some c =>
          rw [handleDisputeLoop_fire t env id rest b2 c hgb hc]
          exact ⟨some (env.submit id c), List.mem_cons_self _ _⟩
      · obtain ⟨r, hr⟩ := ih hmem2
        refine ⟨r, ?_⟩
        cases henv : env.getBlock a with
        | error e =>
          rw [handleDisputeLoop_skip t env a rest e henv]
          exact hr
        | ok b3 =>
          cases hc : disputeClassOf t b3 with
          | none =>
            rw [handleDisputeLoop_clean t env a rest b3 henv hc]
            exact List.mem_cons_of_mem _ hr
          | some c =>
            rw [handleDisputeLoop_fire t env a rest b3 c henv hc]
            exact List.mem_cons_of_mem _ hr

/-- Witness for claim C1: a block wrong in both biggest stake and id
order draws the biggest-stake class (the id check is not consulted),
and with stake and ids right a median difference draws the median
class at its index. -/
theorem handleDispute_priority_witness :
    disputeClassOf ⟨5356, [1, 2], [10, 20]⟩ ⟨true, 4356, [1, 3, 2], [10, 20]⟩
      = some .biggestStakeMismatch ∧
    disputeClassOf ⟨5356, [1, 2], [10, 20]⟩ ⟨true, 5356, [1, 2], [10, 25]⟩
      = some (.medianMismatch 1) := by
  constructor
  · exact (handleDispute_priority ⟨5356, [1, 2], [10, 20]⟩
      ⟨true, 4356, [1, 3, 2], [10, 20]⟩).2.1 (by decide)
  · exact (handleDispute_priority ⟨5356, [1, 2], [10, 20]⟩
      ⟨true, 5356, [1, 2], [10, 25]⟩).2.2.2.1 rfl rfl rfl 1 rfl

/-- Claim C7: whatever each dispute submission returns — in particular
when a transaction reverts with a benign reason such as "already
disputed" — the epoch's dispute pass never returns an error, and the
sequence of blocks examined and classes chosen is exactly the one of a
run in which every submission succeeds: the loop logs the failure and
continues with the next block. -/
theorem handleDispute_benign_revert (t : ChainTruth)
    (g : Nat → Except Nat StructsBlock) (s1 s2 : Nat → DisputeClass → SubmitRes)
    (ids : List Nat) :
    (∀ e, HandleDispute (.ok ids) (.ok t) ⟨g, s1⟩ ≠ .error e) ∧
    (handleDisputeLoop t ⟨g, s1⟩ ids).map (fun x => (x.1, x.2.1))
      = (handleDisputeLoop t ⟨g, s2⟩ ids).map (fun x => (x.1, x.2.1)) := by
  constructor
  · intro e h
    simp [HandleDispute] at h
  · induction ids with
    | nil => rfl
    | cons a rest ih =>
      cases henv : g a with
      | error e2 =>
        rw [handleDisputeLoop_skip t ⟨g, s1⟩ a rest e2 henv,
          handleDisputeLoop_skip t ⟨g, s2⟩ a rest e2 henv]
        exact ih
      | ok b =>
        cases hc : disputeClassOf t b with
        | none =>
          rw [handleDisputeLoop_clean t ⟨g, s1⟩ a rest b henv hc,
            handleDisputeLoop_clean t ⟨g, s2⟩ a rest b henv hc]
          simpa using ih
        | some c =>
          rw [handleDisputeLoop_fire t ⟨g, s1⟩ a rest b c henv hc,
            handleDisputeLoop_fire t ⟨g, s2⟩ a rest b c henv hc]
          simpa using ih

/-! ## giveSorted protocol (spec §4.7.3) -/

/-- Outcome of one `giveSorted` transaction: accepted, the
`gas limit reached` revert, or another error. -/
inductive SendRes where
  | accepted
  | gasLimitReached
  | otherErr
deriving DecidableEq

/-- The initial `giveSorted` batch size of spec §4.7.3. -/
def giveSortedInitialBatchSize : Nat := 20

/-- Modelled from the spec: the batching loop of `GiveSorted` (§4.7.3).
`send start batch` is the chain's answer to submitting `batch` starting
at value index `start`. An accepted batch advances the stream; a
`gas limit reached` revert halves the batch size and replays from the
last accepted index; batch size zero (reached by halving from 1) gives
up; any other error aborts. Returns the trace of attempted batches and
whether the engine gave up. -/
def giveSortedLoop (send : Nat → List Nat → SendRes) (vals : List Nat)
    (start batchSize : Nat) : List (Nat × List Nat × SendRes) × Bool :=
  if _h1 : vals.length ≤ start then ([], false)
  else if _h2 : batchSize = 0 then ([], true)
  else
    match send start ((vals.drop start).take batchSize) with
    | .accepted =>
      let res := giveSortedLoop send vals
        (start + ((vals.drop start).take batchSize).length) batchSize
      ((start, (vals.drop start).take batchSize, .accepted) :: res.1, res.2)
    | .gasLimitReached =>
      let res := giveSortedLoop send vals start (batchSize / 2)
      ((start, (vals.drop start).take batchSize, .gasLimitReached) :: res.1, res.2)
    | .otherErr => ([(start, (vals.drop start).take batchSize, .otherErr)], true)
termination_by (vals.length - start) + batchSize
decreasing_by
  · have hb : 1 ≤ ((vals.drop start).take batchSize).length := by
      rw [List.length_take, List.length_drop]
      omega
    have hb2 : ((vals.drop start).take batchSize).length ≤ vals.length - start := by
      rw [List.length_take, List.length_drop]
      omega
    omega
  · omega

/-- Modelled from the spec: `GiveSorted` slices the sorted revealed
values into batches of initial size 20 and streams them through
`giveSortedLoop`; a nil value list submits nothing. -/
def GiveSorted (send : Nat → List Nat → SendRes) (sortedValues : List Nat) :
    List (Nat × List Nat × SendRes) × Bool :=
  giveSortedLoop send sortedValues 0 giveSortedInitialBatchSize

/-- The values accepted by the chain across a trace, in submission
order. -/
def okJoin (tr : List (Nat × List Nat × SendRes)) : List Nat :=
  ((tr.filter (fun x => x.2.2 = SendRes.accepted)).map (fun x => x.2.1)).flatten

example : GiveSorted (fun _ _ => .accepted) [] = ([], false) := by
  simp [GiveSorted, giveSortedLoop, giveSortedInitialBatchSize]

example : GiveSorted (fun _ _ => .accepted) [5, 6, 7]
    = ([(0, [5, 6, 7], .accepted)], false) := by
  simp [GiveSorted, giveSortedLoop, giveSortedInitialBatchSize]

example :
    GiveSorted (fun _ _ => .gasLimitReached) [1, 2, 3]
      = ([(0, [1, 2, 3], .gasLimitReached), (0, [1, 2, 3], .gasLimitReached),
          (0, [1, 2, 3], .gasLimitReached), (0, [1, 2], .gasLimitReached),
          (0, [1], .gasLimitReached)], true) := by
  simp [GiveSorted, giveSortedLoop, giveSortedInitialBatchSize]

lemma gs_done (send : Nat → List Nat → SendRes) (vals : List Nat) (start bs : Nat)
    (h : vals.length ≤ start) :
    giveSortedLoop send vals start bs = ([], false) := by
  rw [giveSortedLoop]
  rw [dif_pos h]

lemma gs_giveup (send : Nat → List Nat → SendRes) (vals : List Nat) (start : Nat)
    (h : ¬ vals.length ≤ start) :
    giveSortedLoop send vals start 0 = ([], true) := by
  rw [giveSortedLoop]
  rw [dif_neg h, dif_pos rfl]

lemma gs_accepted (send : Nat → List Nat → SendRes) (vals : List Nat) (start bs : Nat)
    (h1 : ¬ vals.length ≤ start) (h2 : bs ≠ 0)
    (hs : send start ((vals.drop start).take bs) = .accepted) :
    giveSortedLoop send vals start bs
      = ((start, (vals.drop start).take bs, .accepted)
          :: (giveSortedLoop send vals (start + ((vals.drop start).take bs).length) bs).1,
        (giveSortedLoop send vals (start + ((vals.drop start).take bs).length) bs).2) := by
  conv_lhs => rw [giveSortedLoop]
  rw [dif_neg h1, dif_neg h2, hs]

lemma gs_gas (send : Nat → List Nat → SendRes) (vals : List Nat) (start bs : Nat)
    (h1 : ¬ vals.length ≤ start) (h2 : bs ≠ 0)
    (hs : send start ((vals.drop start).take bs) = .gasLimitReached) :
    giveSortedLoop send vals start bs
      = ((start, (vals.drop start).take bs, .gasLimitReached)
          :: (giveSortedLoop send vals start (bs / 2)).1,
        (giveSortedLoop send vals start (bs / 2)).2) := by
  conv_lhs => rw [giveSortedLoop]
  rw [dif_neg h1, dif_neg h2, hs]

lemma gs_other (send : Nat → List Nat → SendRes) (vals : List Nat) (start bs : Nat)
    (h1 : ¬ vals.length ≤ start) (h2 : bs ≠ 0)
    (hs : send start ((vals.drop start).take bs) = .otherErr) :
    giveSortedLoop send vals start bs
      = ([(start, (vals.drop start).take bs, .otherErr)], true) := by
  conv_lhs => rw [giveSortedLoop]
  rw [dif_neg h1, dif_neg h2, hs]

lemma okJoin_cons_acc (s : Nat) (b : List Nat) (tr : List (Nat × List Nat × SendRes)) :
    okJoin ((s, b, .accepted) :: tr) = b ++ okJoin tr := by
  simp [okJoin, List.filter_cons]

lemma okJoin_cons_gas (s : Nat) (b : List Nat) (tr : List (Nat × List Nat × SendRes)) :
    okJoin ((s, b, .gasLimitReached) :: tr) = okJoin tr := by
  simp [okJoin, List.filter_cons]

lemma okJoin_cons_other (s : Nat) (b : List Nat) (tr : List (Nat × List Nat × SendRes)) :
    okJoin ((s, b, .otherErr) :: tr) = okJoin tr := by
  simp [okJoin, List.filter_cons]

lemma gs_accepted_fst (send : Nat → List Nat → SendRes) (vals : List Nat) (start bs : Nat)
    (h1 : ¬ vals.length ≤ start) (h2 : bs ≠ 0)
    (hs : send start ((vals.drop start).take bs) = .accepted) :
    (giveSortedLoop send vals start bs).1
      = (start, (vals.drop start).take bs, .accepted)
        :: (giveSortedLoop send vals (start + ((vals.drop start).take bs).length) bs).1 := by
  rw [gs_accepted send vals start bs h1 h2 hs]

lemma gs_accepted_snd (send : Nat → List Nat → SendRes) (vals : List Nat) (start bs : Nat)
    (h1 : ¬ vals.length ≤ start) (h2 : bs ≠ 0)
    (hs : send start ((vals.drop start).take bs) = .accepted) :
    (giveSortedLoop send vals start bs).2
      = (giveSortedLoop send vals (start + ((vals.drop start).take bs).length) bs).2 := by
  rw [gs_accepted send vals start bs h1 h2 hs]

lemma gs_gas_fst (send : Nat → List Nat → SendRes) (vals : List Nat) (start bs : Nat)
    (h1 : ¬ vals.length ≤ start) (h2 : bs ≠ 0)
    (hs : send start ((vals.drop start).take bs) = .gasLimitReached) :
    (giveSortedLoop send vals start bs).1
      = (start, (vals.drop start).take bs, .gasLimitReached)
        :: (giveSortedLoop send vals start (bs / 2)).1 := by
  rw [gs_gas send vals start bs h1 h2 hs]

lemma gs_gas_snd (send : Nat → List Nat → SendRes) (vals : List Nat) (start bs : Nat)
    (h1 : ¬ vals.length ≤ start) (h2 : bs ≠ 0)
    (hs : send start ((vals.drop start).take bs) = .gasLimitReached) :
    (giveSortedLoop send vals start bs).2
      = (giveSortedLoop send vals start (bs / 2)).2 := by
  rw [gs_gas send vals start bs h1 h2 hs]

lemma gs_okJoin (send : Nat → List Nat → SendRes) (vals : List Nat) :
    ∀ n start bs, (vals.length - start) + bs ≤ n →
    (∃ k, okJoin (giveSortedLoop send vals start bs).1 = (vals.drop start).take k) ∧
    ((giveSortedLoop send vals start bs).2 = false →
      okJoin (giveSortedLoop send vals start bs).1 = vals.drop start) := by
  intro n
  induction n with
  | zero =>
    intro start bs hm
    have h1 : vals.length ≤ start := by omega
    rw [gs_done send vals start bs h1]
    constructor
    · exact ⟨0, by simp [okJoin]⟩
    · intro
      simp [okJoin, List.drop_eq_nil_of_le h1]
  | succ n ih =>
    intro start bs hm
    by_cases h1 : vals.length ≤ start
    · rw [gs_done send vals start bs h1]
      constructor
      · exact ⟨0, by simp [okJoin]⟩
      · intro
        simp [okJoin, List.drop_eq_nil_of_le h1]
    · by_cases h2 : bs = 0
      · subst h2
        rw [gs_giveup send vals start h1]
        refine ⟨⟨0, by simp [okJoin]⟩, ?_⟩
        intro h
        simp at h
      · cases hs : send start ((vals.drop start).take bs) with
        | accepted =>
          have hL1 : 1 ≤ ((vals.drop start).take bs).length := by
            rw [List.length_take, List.length_drop]
            omega
          have hL2 : ((vals.drop start).take bs).length ≤ vals.length - start := by
            rw [List.length_take, List.length_drop]
            omega
          have hm2 : (vals.length - (start + ((vals.drop start).take bs).length)) + bs ≤ n := by
            omega
          obtain ⟨⟨k, hk⟩, hcomp⟩ :=
            ih (start + ((vals.drop start).take bs).length) bs hm2
          have hdd : vals.drop (start + ((vals.drop start).take bs).length)
              = (vals.drop start).drop ((vals.drop start).take bs).length := by
            rw [List.drop_drop]
          have htk : (vals.drop start).take ((vals.drop start).take bs).length
              = (vals.drop start).take bs := by
            rw [List.length_take, List.take_eq_take, List.length_drop]
            omega
          constructor
          · refine ⟨((vals.drop start).take bs).length + k, ?_⟩
            rw [gs_accepted_fst send vals start bs h1 h2 hs, okJoin_cons_acc, hk, hdd,
              List.take_add, htk]
          · intro hflag
            rw [gs_accepted_snd send vals start bs h1 h2 hs] at hflag
            rw [gs_accepted_fst send vals start bs h1 h2 hs, okJoin_cons_acc,
              hcomp hflag, hdd]
            nth_rewrite 1 [← htk]
            exact List.take_append_drop _ _
        | gasLimitReached =>
          have hm2 : (vals.length - start) + bs / 2 ≤ n := by omega
          obtain ⟨⟨k, hk⟩, hcomp⟩ := ih start (bs / 2) hm2
          constructor
          · refine ⟨k, ?_⟩
            rw [gs_gas_fst send vals start bs h1 h2 hs, okJoin_cons_gas, hk]
          · intro hflag
            rw [gs_gas_snd send vals start bs h1 h2 hs] at hflag
            rw [gs_gas_fst send vals start bs h1 h2 hs, okJoin_cons_gas, hcomp hflag]
        | otherErr =>
          rw [gs_other send vals start bs h1 h2 hs]
          refine ⟨⟨0, by simp [okJoin, List.filter_cons]⟩, ?_⟩
          intro h
          simp at h

/-- Claim C3: `GiveSorted` streams the sorted values in batches of
initial size 20 (the first attempted batch is `vals.take 20`); the
accepted batches always form a prefix of the value list and, when the
engine does not give up or abort, exactly the whole list — i.e. on a
`gas limit reached` revert the stream is replayed from the last
accepted index, never skipping or resending values; under persistent
`gas limit reached` errors the batch size is halved 20, 10, 5, 2, 1 and
the engine then gives up; and a nil value list submits nothing. -/
theorem giveSorted_batching (send : Nat → List Nat → SendRes) (vals : List Nat) :
    GiveSorted send [] = ([], false) ∧
    (vals ≠ [] → (GiveSorted send vals).1.head?
        = some (0, vals.take giveSortedInitialBatchSize,
            send 0 (vals.take giveSortedInitialBatchSize))) ∧
    (∃ k, okJoin (GiveSorted send vals).1 = vals.take k) ∧
    ((GiveSorted send vals).2 = false → okJoin (GiveSorted send vals).1 = vals) ∧
    ((∀ s b, send s b = .gasLimitReached) → 20 ≤ vals.length →
      GiveSorted send vals
        = ([(0, vals.take 20, .gasLimitReached), (0, vals.take 10, .gasLimitReached),
            (0, vals.take 5, .gasLimitReached), (0, vals.take 2, .gasLimitReached),
            (0, vals.take 1, .gasLimitReached)], true)) := by
  refine ⟨?_, ?_, ?_, ?_, ?_⟩
  · exact gs_done send [] 0 giveSortedInitialBatchSize (by simp)
  · intro hne
    have hpos : 0 < vals.length := List.length_pos.mpr hne
    have h1 : ¬ vals.length ≤ 0 := by omega
    have h2 : giveSortedInitialBatchSize ≠ 0 := by
      simp [giveSortedInitialBatchSize]
    show (giveSortedLoop send vals 0 giveSortedInitialBatchSize).1.head? = _
    cases hs : send 0 ((vals.drop 0).take giveSortedInitialBatchSize) with
    | accepted =>
      rw [gs_accepted_fst send vals 0 giveSortedInitialBatchSize h1 h2 hs]
      simp only [List.drop_zero] at hs ⊢
      simp [hs]
    | gasLimitReached =>
      rw [gs_gas_fst send vals 0 giveSortedInitialBatchSize h1 h2 hs]
      simp only [List.drop_zero] at hs ⊢
      simp [hs]
    | otherErr =>
      show ((giveSortedLoop send vals 0 giveSortedInitialBatchSize).1).head? = _
      rw [show (giveSortedLoop send vals 0 giveSortedInitialBatchSize).1
          = [(0, (vals.drop 0).take giveSortedInitialBatchSize, SendRes.otherErr)] from by
        rw [gs_other send vals 0 giveSortedInitialBatchSize h1 h2 hs]]
      simp only [List.drop_zero] at hs ⊢
      simp [hs]
  · obtain ⟨⟨k, hk⟩, -⟩ := gs_okJoin send vals
      (vals.length + giveSortedInitialBatchSize) 0 giveSortedInitialBatchSize (by omega)
    refine ⟨k, ?_⟩
    rw [List.drop_zero] at hk
    exact hk
  · intro hflag
    obtain ⟨-, hcomp⟩ := gs_okJoin send vals
      (vals.length + giveSortedInitialBatchSize) 0 giveSortedInitialBatchSize (by omega)
    have := hcomp hflag
    rw [List.drop_zero] at this
    exact this
  · intro hgl hlen
    have h1 : ¬ vals.length ≤ 0 := by omega
    have hfst : (giveSortedLoop send vals 0 20).1
        = [(0, vals.take 20, .gasLimitReached), (0, vals.take 10, .gasLimitReached),
            (0, vals.take 5, .gasLimitReached), (0, vals.take 2, .gasLimitReached),
            (0, vals.take 1, .gasLimitReached)] := by
      rw [gs_gas_fst send vals 0 20 h1 (by omega) (hgl 0 _)]
      norm_num
      rw [gs_gas_fst send vals 0 10 h1 (by omega) (hgl 0 _)]
      norm_num
      rw [gs_gas_fst send vals 0 5 h1 (by omega) (hgl 0 _)]
      norm_num
      rw [gs_gas_fst send vals 0 2 h1 (by omega) (hgl 0 _)]
      norm_num
      rw [gs_gas_fst send vals 0 1 h1 (by omega) (hgl 0 _)]
      norm_num
      rw [gs_giveup send vals 0 h1]
    have hsnd : (giveSortedLoop send vals 0 20).2 = true := by
      rw [gs_gas_snd send vals 0 20 h1 (by omega) (hgl 0 _)]
      norm_num
      rw [gs_gas_snd send vals 0 10 h1 (by omega) (hgl 0 _)]
      norm_num
      rw [gs_gas_snd send vals 0 5 h1 (by omega) (hgl 0 _)]
      norm_num
      rw [gs_gas_snd send vals 0 2 h1 (by omega) (hgl 0 _)]
      norm_num
      rw [gs_gas_snd send vals 0 1 h1 (by omega) (hgl 0 _)]
      norm_num
      rw [gs_giveup send vals 0 h1]
    exact Prod.ext hfst hsnd

/-- Witness for claim C3: a fully accepted stream submits exactly the
value list, and a persistently gas-limited stream over 21 values halves
20, 10, 5, 2, 1 and gives up. -/
theorem giveSorted_batching_witness :
    okJoin (GiveSorted (fun _ _ => SendRes.accepted) [1, 2, 3]).1 = [1, 2, 3] ∧
    GiveSorted (fun _ _ => SendRes.gasLimitReached) (List.range 21)
      = ([(0, (List.range 21).take 20, .gasLimitReached),
          (0, (List.range 21).take 10, .gasLimitReached),
          (0, (List.range 21).take 5, .gasLimitReached),
          (0, (List.range 21).take 2, .gasLimitReached),
          (0, (List.range 21).take 1, .gasLimitReached)], true) := by
  constructor
  · exact (giveSorted_batching (fun _ _ => SendRes.accepted) [1, 2, 3]).2.2.2.1
      (by simp [GiveSorted, giveSortedLoop, giveSortedInitialBatchSize])
  · exact (giveSorted_batching (fun _ _ => SendRes.gasLimitReached) (List.range 21)).2.2.2.2
      (fun _ _ => rfl) (by simp)
